import Mathlib

/-!
Verification development for the tractor-inspector GPS track reconstruction
and timeline playback engine (src/frontend/src/views/TractorMap.vue).

The embedding models:
- `getDistance` (haversine great-circle distance) over the reals;
- the track sanitizer inside `fetchData` (validity filter, stable sort by
  timestamp, sequential 500 m outlier rejection against the last accepted
  point);
- `getSpeedColor`, the speed classifier;
- the playhead controller (`play`, `pause`, `reset`, `setSpeed`, `skipBack`,
  `skipForward`, `handleTimelineChange`, and the `setInterval` tick callback)
  as a state machine over `PlayerState`, with the `watch(currentIndex)`
  observer modelled as a counter of index changes and `window.setInterval` /
  `clearInterval` modelled by a list of live timer handles;
- the presentation formatter `formattedPosition` and `currentPosition`.

JavaScript numbers are modelled by `ℝ` where the code does trigonometry
(coordinates, distances) and by `ℚ`/`ℤ` where only ordering and integer
arithmetic matter (speeds, timestamps, indices).  The coercion of `null`
to `0` that JavaScript arithmetic performs is modelled by `Option.getD 0`.
-/

set_option maxHeartbeats 1000000

namespace TractorInspector

/-! ## Geo-distance (TractorMap.vue, `getDistance`) -/

/-- `Math.atan2 y x`, by its standard mathematical definition.  In this
development it is only ever applied with a positive second argument. -/
noncomputable def atan2 (y x : ℝ) : ℝ :=
  if 0 < x then Real.arctan (y / x)
  else if x < 0 ∧ 0 ≤ y then Real.arctan (y / x) + Real.pi
  else if x < 0 ∧ y < 0 then Real.arctan (y / x) - Real.pi
  else if x = 0 ∧ 0 < y then Real.pi / 2
  else if x = 0 ∧ y < 0 then -(Real.pi / 2)
  else 0

/-- The intermediate value `a` of the haversine formula in `getDistance`:
`sin(dLat/2)^2 + cos(lat1 rad) * cos(lat2 rad) * sin(dLon/2)^2`,
with `dLat = (lat2-lat1)*π/180` and `dLon = (lon2-lon1)*π/180`. -/
noncomputable def haversineA (lat1 lon1 lat2 lon2 : ℝ) : ℝ :=
  Real.sin ((lat2 - lat1) * Real.pi / 180 / 2) * Real.sin ((lat2 - lat1) * Real.pi / 180 / 2) +
    Real.cos (lat1 * Real.pi / 180) * Real.cos (lat2 * Real.pi / 180) *
    Real.sin ((lon2 - lon1) * Real.pi / 180 / 2) * Real.sin ((lon2 - lon1) * Real.pi / 180 / 2)

/-- `getDistance(lat1, lon1, lat2, lon2)` from TractorMap.vue:
`R * c` with `R = 6371000` and `c = 2 * atan2(sqrt a, sqrt (1 - a))`. -/
noncomputable def getDistance (lat1 lon1 lat2 lon2 : ℝ) : ℝ :=
  6371000 *
    (2 * atan2 (Real.sqrt (haversineA lat1 lon1 lat2 lon2))
      (Real.sqrt (1 - haversineA lat1 lon1 lat2 lon2)))

/-! ## Data model (src/frontend/src/api/tractors.ts, `GPSData`) -/

/-- One raw telemetry sample.  `date_time` is the parsed instant
(`new Date(d.date_time).getTime()`); coordinates are nullable, matching the
runtime data the validity filter defends against. -/
structure GPSData where
  id : ℤ
  date_time : ℤ
  gps_latitude : Option ℝ
  gps_longitude : Option ℝ
  ground_speed_gearbox : Option ℚ
  engine_speed : Option ℤ

/-! ## Track sanitizer (TractorMap.vue, `fetchData`) -/

/-- JavaScript truthiness of a nullable number: `null` and `0` are falsy. -/
def numTruthy (x : Option ℝ) : Prop :=
  match x with
  | some v => v ≠ 0
  | none => False

/-- `Math.abs` applied to a nullable number (JavaScript coerces `null` to 0). -/
def optAbs (x : Option ℝ) : ℝ :=
  match x with
  | some v => |v|
  | none => 0

/-- The validity filter of `fetchData`:
`d.gps_latitude && d.gps_longitude && d.gps_latitude !== 0 &&
 d.gps_longitude !== 0 && |lat| <= 90 && |lon| <= 180`. -/
def validPoint (d : GPSData) : Prop :=
  numTruthy d.gps_latitude ∧ numTruthy d.gps_longitude ∧
    d.gps_latitude ≠ some 0 ∧ d.gps_longitude ≠ some 0 ∧
    optAbs d.gps_latitude ≤ 90 ∧ optAbs d.gps_longitude ≤ 180

/-- JavaScript `ToNumber` on a nullable number (`null` coerces to `0`). -/
def optToNum (x : Option ℝ) : ℝ := x.getD 0

/-- The acceptance test of the outlier-rejection loop: the candidate is
within 500 meters of the anchor. -/
noncomputable def nearPred (p q : GPSData) : Prop :=
  getDistance (optToNum p.gps_latitude) (optToNum p.gps_longitude)
    (optToNum q.gps_latitude) (optToNum q.gps_longitude) < 500

/-- One iteration of the outlier-rejection loop of `fetchData`: if the
accumulator is empty the point is pushed unconditionally, otherwise it is
pushed exactly when it is `near` the last accepted point. -/
def smoothStep {P : Type} (near : P → P → Prop) [DecidableRel near]
    (acc : List P) (p : P) : List P :=
  match acc.getLast? with
  | none => acc ++ [p]
  | some prev => if near prev p then acc ++ [p] else acc

/-- The full outlier-rejection pass (`for (const point of filtered) ...`). -/
def smooth {P : Type} (near : P → P → Prop) [DecidableRel near]
    (l : List P) : List P :=
  l.foldl (smoothStep near) []

/-- The timestamp comparator of `fetchData`'s `.sort(...)` call, as the
stable ordering it induces. -/
def tsLe (a b : GPSData) : Bool := decide (a.date_time ≤ b.date_time)

open Classical in
/-- The whole sanitization pipeline of `fetchData`: validity filter, stable
sort ascending by timestamp, then sequential outlier rejection. -/
noncomputable def sanitize (l : List GPSData) : List GPSData :=
  smooth nearPred ((l.filter fun d => decide (validPoint d)).mergeSort tsLe)

/-! ## Speed classifier (TractorMap.vue, `getSpeedColor`) -/

/-- `getSpeedColor(speed)`: gray for `null`/`undefined`, green below 5 km/h,
amber below 15 km/h, red otherwise. -/
def getSpeedColor (speed : Option ℚ) : String :=
  match speed with
  | none => "#9ca3af"
  | some s => if s < 5 then "#10b981" else if s < 15 then "#f59e0b" else "#ef4444"

/-! ## Playhead controller (TractorMap.vue timeline state and functions)

The mutable component state is collected in `PlayerState`.  `n` is
`gpsData.value.length` (the trajectory is fixed for a session).  The
`watch(currentIndex, updateMarkerPosition)` observer is modelled by
`notifs`, a counter incremented exactly when an assignment changes
`currentIndex`.  `window.setInterval` is modelled as allocating a fresh
nonzero handle and adding it to the multiset `liveTimers` of timers that
have been created and not yet cleared; `clearInterval h` removes `h`. -/

structure PlayerState where
  n : ℕ
  currentIndex : ℤ
  isPlaying : Bool
  playbackSpeed : ℚ
  playInterval : Option ℕ
  liveTimers : List ℕ
  nextHandle : ℕ
  notifs : ℕ

/-- The initial component state: index 0, stopped, rate 1, no timer. -/
def initState (n : ℕ) : PlayerState :=
  { n := n
    currentIndex := 0
    isPlaying := false
    playbackSpeed := 1
    playInterval := none
    liveTimers := []
    nextHandle := 1
    notifs := 0 }

/-- `currentIndex.value = v`, together with the `watch(currentIndex)`
notification that fires exactly when the value actually changes. -/
def setIndex (s : PlayerState) (v : ℤ) : PlayerState :=
  { s with
    currentIndex := v
    notifs := if v = s.currentIndex then s.notifs else s.notifs + 1 }

/-- `pause()`: set `isPlaying` to false and, if the handle is truthy
(non-null and nonzero), clear the timer and null the handle. -/
def pause (s : PlayerState) : PlayerState :=
  match s.playInterval with
  | some h =>
    if h = 0 then { s with isPlaying := false }
    else { s with
      isPlaying := false
      playInterval := none
      liveTimers := s.liveTimers.erase h }
  | none => { s with isPlaying := false }

/-- `play()`: no-op on an empty trajectory, otherwise set `isPlaying` and
overwrite `playInterval` with a freshly created timer handle.  Note the old
handle is not cleared first. -/
def play (s : PlayerState) : PlayerState :=
  if s.n = 0 then s
  else
    { s with
      isPlaying := true
      playInterval := some s.nextHandle
      liveTimers := s.nextHandle :: s.liveTimers
      nextHandle := s.nextHandle + 1 }

/-- `setSpeed(speed)`: store the new rate unconditionally; if playing,
restart the timer (`pause()` then `play()`). -/
def setSpeed (s : PlayerState) (speed : ℚ) : PlayerState :=
  let s1 := { s with playbackSpeed := speed }
  if s1.isPlaying then play (pause s1) else s1

/-- `reset()`: `pause()` then `currentIndex.value = 0`. -/
def reset (s : PlayerState) : PlayerState := setIndex (pause s) 0

/-- `handleTimelineChange`: assign the parsed slider value to
`currentIndex` directly (there is no clamping in the handler). -/
def handleTimelineChange (s : PlayerState) (v : ℤ) : PlayerState := setIndex s v

/-- `Math.floor(gpsData.value.length * 0.1)`.  For every representable list
length the double-precision product floors to `⌊n / 10⌋`. -/
def skipAmount (n : ℕ) : ℤ := (n : ℤ) / 10

/-- `skipBack()`: `Math.max(0, currentIndex - ⌊0.1 n⌋)`. -/
def skipBack (s : PlayerState) : PlayerState :=
  setIndex s (max 0 (s.currentIndex - skipAmount s.n))

/-- `skipForward()`: `Math.min(n - 1, currentIndex + ⌊0.1 n⌋)`. -/
def skipForward (s : PlayerState) : PlayerState :=
  setIndex s (min ((s.n : ℤ) - 1) (s.currentIndex + skipAmount s.n))

/-- The `setInterval` callback installed by `play()`: at the last index,
`pause()` and rewind to 0; otherwise advance by one. -/
def tick (s : PlayerState) : PlayerState :=
  if s.currentIndex ≥ (s.n : ℤ) - 1 then setIndex (pause s) 0
  else setIndex s (s.currentIndex + 1)

/-! ## Presentation formatter (TractorMap.vue computed values) -/

/-- `' '`, the figure-space padding character of the readouts. -/
def figureSpace : Char := ' '

/-- `String.prototype.padStart(len, c)` for a single padding character. -/
def padStart (s : String) (len : ℕ) (c : Char) : String :=
  String.mk (List.replicate (len - s.length) c) ++ s

/-- The `formattedPosition` computed value:
`(currentIndex + 1).toString().padStart(total.toString().length, ' ') + " / " + total`. -/
def formattedPosition (s : PlayerState) : String :=
  padStart (toString (s.currentIndex + 1)) (toString s.n).length figureSpace ++
    " / " ++ toString s.n

/-- The `currentPosition` computed value: `null` on an empty trajectory,
otherwise `gpsData[currentIndex]` (`undefined`, i.e. `none`, out of range). -/
def currentPosition (gps : List GPSData) (s : PlayerState) : Option GPSData :=
  if gps.length = 0 then none
  else if 0 ≤ s.currentIndex then gps.get? s.currentIndex.toNat else none

/-- The PlaybackState invariant of the spec: `currentIndex` is a valid index
into the trajectory, or 0 when the trajectory is empty. -/
def PlaybackInv (s : PlayerState) : Prop :=
  (s.n = 0 → s.currentIndex = 0) ∧
    (s.n ≠ 0 → 0 ≤ s.currentIndex ∧ s.currentIndex ≤ (s.n : ℤ) - 1)

/-- The transport operations of the playhead controller. -/
inductive Op where
  | play : Op
  | pause : Op
  | reset : Op
  | seek : ℤ → Op
  | skipBack : Op
  | skipForward : Op
  | setSpeed : ℚ → Op
  | tick : Op

def applyOp (s : PlayerState) : Op → PlayerState
  | Op.play => play s
  | Op.pause => pause s
  | Op.reset => reset s
  | Op.seek v => handleTimelineChange s v
  | Op.skipBack => skipBack s
  | Op.skipForward => skipForward s
  | Op.setSpeed r => setSpeed s r
  | Op.tick => tick s

def isPlayOp : Op → Bool
  | Op.play => true
  | _ => false

/-- Run a sequence of transport operations from a state. -/
def runOps (s : PlayerState) (ops : List Op) : PlayerState := ops.foldl applyOp s

/-- A trace is guarded when `play` is only ever invoked while stopped —
exactly the call discipline the component's UI enforces (the play/pause
button toggles, and `setSpeed` pauses before replaying). -/
def guardedTrace (s : PlayerState) : List Op → Bool
  | [] => true
  | o :: rest => ((!isPlayOp o) || !s.isPlaying) && guardedTrace (applyOp s o) rest

/-- Timer-ownership invariant: the handle counter is positive, the set of
live timers is empty or exactly the held handle, and `isPlaying` mirrors
holding a handle. -/
def TimerInv (s : PlayerState) : Prop :=
  1 ≤ s.nextHandle ∧
    ((s.playInterval = none ∧ s.liveTimers = []) ∨
      (∃ h, s.playInterval = some h ∧ s.liveTimers = [h] ∧ 1 ≤ h)) ∧
    s.isPlaying = s.playInterval.isSome

/-! ## Concrete sample points for the sanitizer scenarios -/

/-- A(0°, 0°): the spec scenario's first point — latitude and longitude are
both the "no fix" sentinel `0`. -/
noncomputable def ptA0 : GPSData := ⟨1, 0, some 0, some 0, none, none⟩

/-- B(0°, 0.01°): latitude 0. -/
noncomputable def ptB0 : GPSData := ⟨2, 1, some 0, some (1 / 100), none, none⟩

/-- C(0°, 0.0001°): latitude 0. -/
noncomputable def ptC0 : GPSData := ⟨3, 2, some 0, some (1 / 10000), none, none⟩

/-- A valid variant of the scenario: A(1°, 1°). -/
noncomputable def ptA : GPSData := ⟨1, 0, some 1, some 1, none, none⟩

/-- B(1.01°, 1°): about 1.1 km from A. -/
noncomputable def ptB : GPSData := ⟨2, 1, some (101 / 100), some 1, none, none⟩

/-- C(1.0001°, 1°): about 11 m from A. -/
noncomputable def ptC : GPSData := ⟨3, 2, some (10001 / 10000), some 1, none, none⟩

/-- A decidable stand-in acceptance relation over `ℕ` used to exercise the
generic outlier-rejection loop on executable inputs. -/
def natNear (a b : ℕ) : Prop := b < a + 500

instance natNear.instDecidable : DecidableRel natNear :=
  fun a b => Nat.decLt b (a + 500)

/-! ## Geo-distance lemmas -/

lemma haversineA_same_lon (lat1 lat2 lon : ℝ) :
    haversineA lat1 lon lat2 lon =
      Real.sin ((lat2 - lat1) * Real.pi / 180 / 2) *
        Real.sin ((lat2 - lat1) * Real.pi / 180 / 2) := by
  unfold haversineA
  rw [show (lon - lon) * Real.pi / 180 / 2 = 0 by ring, Real.sin_zero]
  ring

lemma atan2_sqrt_sin_sq (θ : ℝ) (h0 : 0 ≤ θ) (h1 : θ < Real.pi / 2) :
    atan2 (Real.sqrt (Real.sin θ * Real.sin θ))
      (Real.sqrt (1 - Real.sin θ * Real.sin θ)) = θ := by
  have hpi := Real.pi_pos
  have hsin : 0 ≤ Real.sin θ :=
    Real.sin_nonneg_of_nonneg_of_le_pi h0 (by linarith)
  have hcos : 0 < Real.cos θ := Real.cos_pos_of_mem_Ioo ⟨by linarith, h1⟩
  have hs1 : Real.sqrt (Real.sin θ * Real.sin θ) = Real.sin θ :=
    Real.sqrt_mul_self hsin
  have h1s : 1 - Real.sin θ * Real.sin θ = Real.cos θ * Real.cos θ := by
    have h := Real.sin_sq_add_cos_sq θ
    nlinarith [h]
  have hs2 : Real.sqrt (1 - Real.sin θ * Real.sin θ) = Real.cos θ := by
    rw [h1s]; exact Real.sqrt_mul_self hcos.le
  rw [hs1, hs2]
  unfold atan2
  rw [if_pos hcos, ← Real.tan_eq_sin_div_cos]
  exact Real.arctan_tan (by linarith) h1

/-- On a meridian (equal longitudes) the haversine distance reduces to
arc length along the great circle: `R * dLat` in radians. -/
lemma getDistance_same_lon (lat1 lat2 lon : ℝ) (h1 : lat1 ≤ lat2)
    (h2 : lat2 - lat1 < 180) :
    getDistance lat1 lon lat2 lon = 6371000 * ((lat2 - lat1) * Real.pi / 180) := by
  have hpi := Real.pi_pos
  have hd0 : 0 ≤ lat2 - lat1 := sub_nonneg.mpr h1
  have hθ0 : 0 ≤ (lat2 - lat1) * Real.pi / 180 / 2 :=
    div_nonneg (div_nonneg (mul_nonneg hd0 hpi.le) (by norm_num)) (by norm_num)
  have hθlt : (lat2 - lat1) * Real.pi / 180 / 2 < Real.pi / 2 := by
    have h3 : (lat2 - lat1) * Real.pi < 180 * Real.pi :=
      mul_lt_mul_of_pos_right h2 hpi
    linarith
  unfold getDistance
  rw [haversineA_same_lon, atan2_sqrt_sin_sq _ hθ0 hθlt]
  ring

/-- ~1111.9 m: a 0.01° latitude step at fixed longitude is at least 500 m. -/
lemma dist_far : ¬ getDistance 1 1 (101 / 100) 1 < 500 := by
  rw [getDistance_same_lon 1 (101 / 100) 1 (by norm_num) (by norm_num)]
  intro h
  nlinarith [Real.pi_gt_three]

/-- ~11.1 m: a 0.0001° latitude step at fixed longitude is below 500 m. -/
lemma dist_near : getDistance 1 1 (10001 / 10000) 1 < 500 := by
  rw [getDistance_same_lon 1 (10001 / 10000) 1 (by norm_num) (by norm_num)]
  nlinarith [Real.pi_lt_d2]

/-! ## Outlier-rejection loop lemmas -/

lemma smoothStep_empty {P : Type} (near : P → P → Prop) [DecidableRel near]
    {acc : List P} (p : P) (h : acc.getLast? = none) :
    smoothStep near acc p = acc ++ [p] := by
  unfold smoothStep
  rw [h]

lemma smoothStep_accept {P : Type} (near : P → P → Prop) [DecidableRel near]
    {acc : List P} {prev : P} (p : P) (h : acc.getLast? = some prev)
    (hn : near prev p) : smoothStep near acc p = acc ++ [p] := by
  unfold smoothStep
  rw [h]
  exact if_pos hn

lemma smoothStep_reject {P : Type} (near : P → P → Prop) [DecidableRel near]
    {acc : List P} {prev : P} (p : P) (h : acc.getLast? = some prev)
    (hn : ¬ near prev p) : smoothStep near acc p = acc := by
  unfold smoothStep
  rw [h]
  exact if_neg hn

/-- A rejected candidate changes nothing: the loop continues with the same
accumulator, so the rejected point is never an anchor and never reconsidered. -/
lemma smooth_foldl_reject {P : Type} (near : P → P → Prop) [DecidableRel near]
    {acc : List P} {prev : P} (p : P) (rest : List P)
    (h : acc.getLast? = some prev) (hn : ¬ near prev p) :
    List.foldl (smoothStep near) acc (p :: rest) =
      List.foldl (smoothStep near) acc rest := by
  rw [List.foldl_cons, smoothStep_reject near p h hn]

/-- An accepted candidate is appended and becomes the new anchor. -/
lemma smooth_foldl_accept {P : Type} (near : P → P → Prop) [DecidableRel near]
    {acc : List P} {prev : P} (p : P) (rest : List P)
    (h : acc.getLast? = some prev) (hn : near prev p) :
    List.foldl (smoothStep near) acc (p :: rest) =
      List.foldl (smoothStep near) (acc ++ [p]) rest := by
  rw [List.foldl_cons, smoothStep_accept near p h hn]

/-- If every point of `l` is `near` its predecessor (and the head connects to
the accumulator's last element), the loop accepts everything. -/
lemma smooth_foldl_of_chain {P : Type} (near : P → P → Prop) [DecidableRel near] :
    ∀ (l acc : List P), l.Chain' near →
      (∀ prev h, acc.getLast? = some prev → l.head? = some h → near prev h) →
      List.foldl (smoothStep near) acc l = acc ++ l := by
  intro l
  induction l with
  | nil => intro acc _ _; simp
  | cons p rest ih =>
    intro acc hcl hconn
    have hstep : smoothStep near acc p = acc ++ [p] := by
      cases hlast : acc.getLast? with
      | none => exact smoothStep_empty near p hlast
      | some prev =>
        exact smoothStep_accept near p hlast (hconn prev p hlast rfl)
    rw [List.foldl_cons, hstep,
      ih (acc ++ [p]) (List.Chain'.tail hcl) ?_]
    · simp
    · intro prev h hlast hhead
      rw [List.getLast?_concat] at hlast
      cases hlast
      rcases List.chain'_cons'.mp hcl with ⟨hph, _⟩
      exact hph h hhead

/-- The accumulator only grows by a selection of the remaining input, in
order: the final result is the accumulator followed by a sublist of `l`. -/
lemma smooth_foldl_sublist {P : Type} (near : P → P → Prop) [DecidableRel near] :
    ∀ (l acc : List P), ∃ s, s.Sublist l ∧
      List.foldl (smoothStep near) acc l = acc ++ s := by
  intro l
  induction l with
  | nil => intro acc; exact ⟨[], List.Sublist.refl _, by simp⟩
  | cons p rest ih =>
    intro acc
    rw [List.foldl_cons]
    cases hlast : acc.getLast? with
    | none =>
      rw [smoothStep_empty near p hlast]
      rcases ih (acc ++ [p]) with ⟨s, hs, he⟩
      exact ⟨p :: s, List.Sublist.cons₂ p hs, by simpa using he⟩
    | some prev =>
      by_cases hn : near prev p
      · rw [smoothStep_accept near p hlast hn]
        rcases ih (acc ++ [p]) with ⟨s, hs, he⟩
        exact ⟨p :: s, List.Sublist.cons₂ p hs, by simpa using he⟩
      · rw [smoothStep_reject near p hlast hn]
        rcases ih acc with ⟨s, hs, he⟩
        exact ⟨s, List.Sublist.cons p hs, he⟩

/-- Every consecutive pair of the loop's output is `near`: each accepted
point was compared against exactly its predecessor in the output. -/
lemma smooth_foldl_chain' {P : Type} (near : P → P → Prop) [DecidableRel near] :
    ∀ (l acc : List P), acc.Chain' near →
      (List.foldl (smoothStep near) acc l).Chain' near := by
  intro l
  induction l with
  | nil => intro acc h; simpa using h
  | cons p rest ih =>
    intro acc hacc
    rw [List.foldl_cons]
    apply ih
    cases hlast : acc.getLast? with
    | none =>
      rw [smoothStep_empty near p hlast]
      rw [List.getLast?_eq_none_iff] at hlast
      subst hlast
      simp
    | some prev =>
      by_cases hn : near prev p
      · rw [smoothStep_accept near p hlast hn]
        refine List.Chain'.append hacc (by simp) ?_
        intro x hx y hy
        rw [hlast, Option.mem_def, Option.some_inj] at hx
        simp only [List.head?_cons, Option.mem_def, Option.some_inj] at hy
        exact hx ▸ hy ▸ hn
      · rw [smoothStep_reject near p hlast hn]
        exact hacc

/-! ## Projection helpers for the controller operations -/

@[simp] lemma setIndex_n (s : PlayerState) (v : ℤ) : (setIndex s v).n = s.n := rfl

@[simp] lemma setIndex_currentIndex (s : PlayerState) (v : ℤ) :
    (setIndex s v).currentIndex = v := rfl

@[simp] lemma setIndex_isPlaying (s : PlayerState) (v : ℤ) :
    (setIndex s v).isPlaying = s.isPlaying := rfl

@[simp] lemma setIndex_playbackSpeed (s : PlayerState) (v : ℤ) :
    (setIndex s v).playbackSpeed = s.playbackSpeed := rfl

@[simp] lemma setIndex_playInterval (s : PlayerState) (v : ℤ) :
    (setIndex s v).playInterval = s.playInterval := rfl

@[simp] lemma setIndex_liveTimers (s : PlayerState) (v : ℤ) :
    (setIndex s v).liveTimers = s.liveTimers := rfl

@[simp] lemma setIndex_nextHandle (s : PlayerState) (v : ℤ) :
    (setIndex s v).nextHandle = s.nextHandle := rfl

@[simp] lemma pause_n (s : PlayerState) : (pause s).n = s.n := by
  unfold pause; split
  · split <;> rfl
  · rfl

@[simp] lemma pause_currentIndex (s : PlayerState) :
    (pause s).currentIndex = s.currentIndex := by
  unfold pause; split
  · split <;> rfl
  · rfl

@[simp] lemma pause_isPlaying (s : PlayerState) : (pause s).isPlaying = false := by
  unfold pause; split
  · split <;> rfl
  · rfl

@[simp] lemma pause_playbackSpeed (s : PlayerState) :
    (pause s).playbackSpeed = s.playbackSpeed := by
  unfold pause; split
  · split <;> rfl
  · rfl

@[simp] lemma pause_notifs (s : PlayerState) : (pause s).notifs = s.notifs := by
  unfold pause; split
  · split <;> rfl
  · rfl

@[simp] lemma pause_nextHandle (s : PlayerState) :
    (pause s).nextHandle = s.nextHandle := by
  unfold pause; split
  · split <;> rfl
  · rfl

@[simp] lemma play_n (s : PlayerState) : (play s).n = s.n := by
  unfold play; split <;> rfl

@[simp] lemma play_currentIndex (s : PlayerState) :
    (play s).currentIndex = s.currentIndex := by
  unfold play; split <;> rfl

@[simp] lemma play_playbackSpeed (s : PlayerState) :
    (play s).playbackSpeed = s.playbackSpeed := by
  unfold play; split <;> rfl

@[simp] lemma play_notifs (s : PlayerState) : (play s).notifs = s.notifs := by
  unfold play; split <;> rfl

@[simp] lemma setSpeed_n (s : PlayerState) (r : ℚ) : (setSpeed s r).n = s.n := by
  unfold setSpeed; dsimp only; split <;> simp

@[simp] lemma setSpeed_currentIndex (s : PlayerState) (r : ℚ) :
    (setSpeed s r).currentIndex = s.currentIndex := by
  unfold setSpeed; dsimp only; split <;> simp

@[simp] lemma setSpeed_playbackSpeed (s : PlayerState) (r : ℚ) :
    (setSpeed s r).playbackSpeed = r := by
  unfold setSpeed; dsimp only; split <;> simp

/-! ## C7 — speed classifier thresholds -/

/-- C7: the speed classifier maps exactly by the stated thresholds for every
input: `null` → Unknown (gray), speed < 5 → Slow (green), 5 ≤ speed < 15 →
Medium (amber), speed ≥ 15 → Fast (red); in particular 4.999 → Slow,
5.0 → Medium, 14.999 → Medium, 15.0 → Fast. -/
theorem c7_classifier_thresholds :
    getSpeedColor none = "#9ca3af" ∧
      (∀ s : ℚ, s < 5 → getSpeedColor (some s) = "#10b981") ∧
      (∀ s : ℚ, 5 ≤ s → s < 15 → getSpeedColor (some s) = "#f59e0b") ∧
      (∀ s : ℚ, 15 ≤ s → getSpeedColor (some s) = "#ef4444") ∧
      getSpeedColor (some (4999 / 1000)) = "#10b981" ∧
      getSpeedColor (some 5) = "#f59e0b" ∧
      getSpeedColor (some (14999 / 1000)) = "#f59e0b" ∧
      getSpeedColor (some 15) = "#ef4444" := by
  refine ⟨rfl, ?_, ?_, ?_, by norm_num [getSpeedColor], by norm_num [getSpeedColor],
    by norm_num [getSpeedColor], by norm_num [getSpeedColor]⟩
  · intro s h
    simp [getSpeedColor, h]
  · intro s h1 h2
    simp [getSpeedColor, not_lt.mpr h1, h2]
  · intro s h
    have h1 : ¬ s < 5 := not_lt.mpr (by linarith)
    have h2 : ¬ s < 15 := not_lt.mpr h
    simp [getSpeedColor, h1, h2]

/-- Witness for C7 at fresh concrete speeds 3, 7, 20. -/
theorem c7_classifier_thresholds_witness :
    getSpeedColor (some 3) = "#10b981" ∧ getSpeedColor (some 7) = "#f59e0b" ∧
      getSpeedColor (some 20) = "#ef4444" :=
  ⟨c7_classifier_thresholds.2.1 3 (by norm_num),
    c7_classifier_thresholds.2.2.1 7 (by norm_num) (by norm_num),
    c7_classifier_thresholds.2.2.2.1 20 (by norm_num)⟩

/-! ## C10 — position readout on an empty trajectory -/

/-- C10: on an empty trajectory the position readout is still produced and
equals "1 / 0" (currentIndex+1 over the zero total, padded to the
digit-width of the total), while the current point itself is absent. -/
theorem c10_empty_position_readout :
    formattedPosition (initState 0) = "1 / 0" ∧
      currentPosition [] (initState 0) = none :=
  ⟨rfl, rfl⟩

/-! ## C5 — setSpeed performs no validation -/

/-- C5 counterexample: `setSpeed 3` — a rate outside {0.5, 1, 2, 4} — is
accepted silently and stored, not rejected. -/
theorem c5_counterexample :
    (setSpeed (initState 5) 3).playbackSpeed = 3 ∧
      ¬ ((3 : ℚ) = 1 / 2 ∨ (3 : ℚ) = 1 ∨ (3 : ℚ) = 2 ∨ (3 : ℚ) = 4) :=
  ⟨rfl, by norm_num⟩

/-- C5 amended: `setSpeed` stores any rate unconditionally — there is no
validation, rejection, or clamping; the four permitted rates are enforced
only by the UI offering only those buttons. -/
theorem c5_setSpeed_stores_any_rate (s : PlayerState) (r : ℚ) :
    (setSpeed s r).playbackSpeed = r := by
  simp

/-! ## C3 — the seek handler does not clamp -/

/-- C3 counterexample: on a 10-point trajectory, `handleTimelineChange 999`
stores 999 (not the claimed clamp to 9), and on an empty trajectory
`handleTimelineChange (-5)` stores -5 (not the claimed 0). -/
theorem c3_counterexample :
    (handleTimelineChange (initState 10) 999).currentIndex = 999 ∧
      (handleTimelineChange (initState 10) 999).currentIndex ≠ 9 ∧
      (handleTimelineChange (initState 0) (-5)).currentIndex = -5 :=
  ⟨rfl, by decide, rfl⟩

/-- C3 amended: the seek handler assigns its argument to `currentIndex`
verbatim — no clamping and no error on any trajectory — and leaves
`isPlaying` unchanged; clamping to [0, N-1] is provided only by the range
input's min/max attributes in the template, not by the handler. -/
theorem c3_seek_unclamped (s : PlayerState) (v : ℤ) :
    (handleTimelineChange s v).currentIndex = v ∧
      (handleTimelineChange s v).isPlaying = s.isPlaying :=
  ⟨rfl, rfl⟩

/-! ## C2 — the PlaybackState invariant -/

/-- C2 counterexample: `skipForward` on an empty trajectory stores
`min(0 - 1, 0 + 0) = -1`, and the seek handler stores any out-of-range
argument, so the invariant does not survive every operation. -/
theorem c2_counterexample :
    (skipForward (initState 0)).currentIndex = -1 ∧
      (handleTimelineChange (initState 3) 999).currentIndex = 999 ∧
      ¬ (999 : ℤ) ≤ ((initState 3).n : ℤ) - 1 :=
  ⟨by decide, rfl, by decide⟩

/-- C2 amended: the invariant (`currentIndex ∈ [0, N-1]`, or 0 when the
trajectory is empty) is preserved by `play`, `pause`, `reset`, `skipBack`,
`setSpeed` and every tick; `skipForward` preserves it only on a non-empty
trajectory (on an empty one it stores -1), and the seek handler preserves
it only when its argument is already in range (it stores the argument
verbatim). -/
theorem c2_playback_invariant (s : PlayerState) (v : ℤ) (r : ℚ)
    (hInv : PlaybackInv s) :
    PlaybackInv (play s) ∧ PlaybackInv (pause s) ∧ PlaybackInv (reset s) ∧
      PlaybackInv (skipBack s) ∧ PlaybackInv (setSpeed s r) ∧ PlaybackInv (tick s) ∧
      (s.n ≠ 0 → PlaybackInv (skipForward s)) ∧
      (0 ≤ v → v ≤ (s.n : ℤ) - 1 → PlaybackInv (handleTimelineChange s v)) := by
  obtain ⟨h0, h1⟩ := hInv
  refine ⟨?_, ?_, ?_, ?_, ?_, ?_, ?_, ?_⟩
  · simp only [PlaybackInv, play_n, play_currentIndex]
    exact ⟨h0, h1⟩
  · simp only [PlaybackInv, pause_n, pause_currentIndex]
    exact ⟨h0, h1⟩
  · simp only [PlaybackInv, reset, setIndex_n, setIndex_currentIndex, pause_n]
    exact ⟨fun _ => trivial, fun hn => ⟨le_refl 0, by omega⟩⟩
  · simp only [PlaybackInv, skipBack, setIndex_n, setIndex_currentIndex, skipAmount]
    omega
  · simp only [PlaybackInv, setSpeed_n, setSpeed_currentIndex]
    exact ⟨h0, h1⟩
  · unfold tick
    split
    · simp only [PlaybackInv, setIndex_n, setIndex_currentIndex, pause_n]
      exact ⟨fun _ => trivial, fun hn => ⟨le_refl 0, by omega⟩⟩
    · simp only [PlaybackInv, setIndex_n, setIndex_currentIndex]
      omega
  · intro hn
    simp only [PlaybackInv, skipForward, setIndex_n, setIndex_currentIndex, skipAmount]
    omega
  · intro hv0 hv1
    simp only [PlaybackInv, handleTimelineChange, setIndex_n, setIndex_currentIndex]
    omega

/-- Witness for C2 on a 3-point trajectory with an in-range seek target. -/
theorem c2_playback_invariant_witness :
    PlaybackInv (play (initState 3)) ∧ PlaybackInv (pause (initState 3)) ∧
      PlaybackInv (reset (initState 3)) ∧ PlaybackInv (skipBack (initState 3)) ∧
      PlaybackInv (setSpeed (initState 3) 2) ∧ PlaybackInv (tick (initState 3)) ∧
      ((initState 3).n ≠ 0 → PlaybackInv (skipForward (initState 3))) ∧
      (0 ≤ (1 : ℤ) → (1 : ℤ) ≤ ((initState 3).n : ℤ) - 1 →
        PlaybackInv (handleTimelineChange (initState 3) 1)) :=
  c2_playback_invariant (initState 3) 1 2 ⟨fun _ => rfl, fun _ => by decide⟩

/-! ## C4 — playback run to completion -/

lemma setIndex_notifs_ne (s : PlayerState) (v : ℤ) (h : v ≠ s.currentIndex) :
    (setIndex s v).notifs = s.notifs + 1 := by
  unfold setIndex
  simp [h]

lemma setIndex_notifs_eq (s : PlayerState) (v : ℤ) (h : v = s.currentIndex) :
    (setIndex s v).notifs = s.notifs := by
  unfold setIndex
  simp [h]

lemma tick_advance (s : PlayerState) (h : ¬ s.currentIndex ≥ (s.n : ℤ) - 1) :
    tick s = setIndex s (s.currentIndex + 1) := by
  unfold tick
  rw [if_neg h]

lemma tick_stop (s : PlayerState) (h : s.currentIndex ≥ (s.n : ℤ) - 1) :
    tick s = setIndex (pause s) 0 := by
  unfold tick
  rw [if_pos h]

/-- While strictly before the last index, `k` ticks advance the index by `k`,
fire `k` change notifications, and touch nothing else. -/
lemma tick_iterate_fields (k : ℕ) :
    ∀ s : PlayerState, 0 ≤ s.currentIndex →
      s.currentIndex + k ≤ (s.n : ℤ) - 1 →
      (tick^[k] s).n = s.n ∧ (tick^[k] s).currentIndex = s.currentIndex + k ∧
        (tick^[k] s).isPlaying = s.isPlaying ∧
        (tick^[k] s).notifs = s.notifs + k ∧
        (tick^[k] s).playInterval = s.playInterval := by
  induction k with
  | zero =>
    intro s h0 hk
    simp
  | succ k ih =>
    intro s h0 hk
    rw [Function.iterate_succ_apply]
    have hc : ¬ s.currentIndex ≥ (s.n : ℤ) - 1 := by push_cast at hk; omega
    rw [tick_advance s hc]
    have h0' : 0 ≤ (setIndex s (s.currentIndex + 1)).currentIndex := by
      simp; omega
    have hk' : (setIndex s (s.currentIndex + 1)).currentIndex + k ≤
        ((setIndex s (s.currentIndex + 1)).n : ℤ) - 1 := by
      simp only [setIndex_n, setIndex_currentIndex]
      push_cast at hk
      omega
    obtain ⟨e1, e2, e3, e4, e5⟩ := ih (setIndex s (s.currentIndex + 1)) h0' hk'
    rw [setIndex_notifs_ne s _ (by omega)] at e4
    refine ⟨by simpa using e1, ?_, by simpa using e3, by omega, by simpa using e5⟩
    rw [e2]
    simp only [setIndex_currentIndex]
    push_cast
    ring

lemma play_isPlaying_of_ne (s : PlayerState) (h : s.n ≠ 0) :
    (play s).isPlaying = true := by
  unfold play
  rw [if_neg h]

lemma play_playInterval_of_ne (s : PlayerState) (h : s.n ≠ 0) :
    (play s).playInterval = some s.nextHandle := by
  unfold play
  rw [if_neg h]

/-- C4 counterexample: on a 2-point trajectory a full run produces 2 index
-change notifications (the advance 0→1 and the final reset 1→0), not the
claimed N-1 = 1; the run does end stopped at index 0. -/
theorem c4_counterexample :
    (tick (tick (play (initState 2)))).notifs = 2 ∧
      (tick (tick (play (initState 2)))).notifs ≠ 2 - 1 ∧
      (tick (tick (play (initState 2)))).isPlaying = false ∧
      (tick (tick (play (initState 2)))).currentIndex = 0 := by
  refine ⟨by decide, by decide, by decide, by decide⟩

/-- C4 amended: starting `play()` from the initial state on a trajectory of
length N ≥ 1 and running the tick loop to completion (N ticks, no
intervening calls) ends with `isPlaying = false` and `currentIndex = 0`
(loop-to-start-but-paused), and fires N-1 advancing position-change
notifications plus one more for the final reset of the index from N-1 to 0
— i.e. 0 notifications when N = 1 and N notifications when N ≥ 2 (the
claimed total of N-1 holds only for N = 1). -/
theorem c4_playback_termination (n : ℕ) (hn : 1 ≤ n) :
    (tick^[n] (play (initState n))).isPlaying = false ∧
      (tick^[n] (play (initState n))).currentIndex = 0 ∧
      (tick^[n] (play (initState n))).notifs = if n = 1 then 0 else n := by
  have hne : n ≠ 0 := by omega
  have hsucc : n = (n - 1) + 1 := by omega
  set s0 := play (initState n) with hs0
  have hn0 : s0.n = n := by simp [hs0, initState]
  have hi0 : s0.currentIndex = 0 := by simp [hs0, initState]
  have hnf0 : s0.notifs = 0 := by simp [hs0, initState]
  obtain ⟨e1, e2, e3, e4, e5⟩ :=
    tick_iterate_fields (n - 1) s0
      (by rw [hi0]) (by rw [hi0, hn0]; omega)
  rw [hn0] at e1
  rw [hi0] at e2
  rw [hnf0] at e4
  have hcond : (tick^[n - 1] s0).currentIndex ≥ ((tick^[n - 1] s0).n : ℤ) - 1 := by
    rw [e1, e2]
    omega
  have hiter : tick^[n] s0 = tick (tick^[n - 1] s0) := by
    conv_lhs => rw [hsucc]
    rw [Function.iterate_succ_apply']
  rw [hiter, tick_stop _ hcond]
  refine ⟨by simp, by simp, ?_⟩
  by_cases h1 : n = 1
  · subst h1
    decide
  · rw [setIndex_notifs_ne _ _ ?_]
    · rw [pause_notifs, e4, if_neg h1]
      omega
    · rw [pause_currentIndex, e2]
      omega

/-- Witness for C4 on a 3-point trajectory. -/
theorem c4_playback_termination_witness :
    (tick^[3] (play (initState 3))).isPlaying = false ∧
      (tick^[3] (play (initState 3))).currentIndex = 0 ∧
      (tick^[3] (play (initState 3))).notifs = if 3 = 1 then 0 else 3 :=
  c4_playback_termination 3 (by norm_num)

/-! ## C6 — timer ownership -/

lemma pause_of_interval_none (s : PlayerState) (h : s.playInterval = none) :
    pause s = { s with isPlaying := false } := by
  unfold pause
  rw [h]

lemma pause_of_interval_some (s : PlayerState) (h : ℕ) (hh : s.playInterval = some h)
    (h0 : h ≠ 0) :
    pause s = { s with
      isPlaying := false
      playInterval := none
      liveTimers := s.liveTimers.erase h } := by
  unfold pause
  rw [hh]
  dsimp only
  rw [if_neg h0]

lemma play_of_ne (s : PlayerState) (h : s.n ≠ 0) :
    play s = { s with
      isPlaying := true
      playInterval := some s.nextHandle
      liveTimers := s.nextHandle :: s.liveTimers
      nextHandle := s.nextHandle + 1 } := by
  unfold play
  rw [if_neg h]

lemma timerInv_setIndex (s : PlayerState) (v : ℤ) (h : TimerInv s) :
    TimerInv (setIndex s v) := h

lemma timerInv_pause (s : PlayerState) (h : TimerInv s) : TimerInv (pause s) := by
  obtain ⟨hnh, hdisj, hplay⟩ := h
  rcases hdisj with ⟨hi, ht⟩ | ⟨hh, hi, ht, h1⟩
  · rw [pause_of_interval_none s hi]
    exact ⟨hnh, Or.inl ⟨hi, ht⟩, by simp [hi]⟩
  · rw [pause_of_interval_some s hh hi (by omega)]
    refine ⟨hnh, Or.inl ⟨rfl, ?_⟩, rfl⟩
    rw [ht]
    simp

lemma timerInv_play (s : PlayerState) (hstop : s.isPlaying = false)
    (h : TimerInv s) : TimerInv (play s) := by
  obtain ⟨hnh, hdisj, hplay⟩ := h
  by_cases hn : s.n = 0
  · unfold play
    rw [if_pos hn]
    exact ⟨hnh, hdisj, hplay⟩
  · have hint : s.liveTimers = [] := by
      rcases hdisj with ⟨_, ht⟩ | ⟨hh, hi, _, _⟩
      · exact ht
      · rw [hstop, hi] at hplay
        simp at hplay
    rw [play_of_ne s hn]
    refine ⟨Nat.le_succ_of_le hnh, Or.inr ⟨s.nextHandle, rfl, ?_, hnh⟩, rfl⟩
    rw [hint]

lemma timerInv_setSpeed (s : PlayerState) (r : ℚ) (h : TimerInv s) :
    TimerInv (setSpeed s r) := by
  unfold setSpeed
  dsimp only
  split
  · exact timerInv_play _ (pause_isPlaying _) (timerInv_pause _ h)
  · exact h

lemma timerInv_tick (s : PlayerState) (h : TimerInv s) : TimerInv (tick s) := by
  unfold tick
  split
  · exact timerInv_setIndex _ 0 (timerInv_pause s h)
  · exact timerInv_setIndex _ _ h

/-- Along any trace in which `play` is only invoked while stopped, the
timer-ownership invariant is maintained. -/
lemma timerInv_runOps :
    ∀ (ops : List Op) (s : PlayerState), TimerInv s →
      guardedTrace s ops = true → TimerInv (runOps s ops) := by
  intro ops
  induction ops with
  | nil => intro s h _; exact h
  | cons o rest ih =>
    intro s h hg
    simp only [guardedTrace, Bool.and_eq_true] at hg
    obtain ⟨hguard, hrest⟩ := hg
    have hstep : TimerInv (applyOp s o) := by
      cases o with
      | play =>
        have hstop : s.isPlaying = false := by
          simpa [isPlayOp] using hguard
        exact timerInv_play s hstop h
      | pause => exact timerInv_pause s h
      | reset => exact timerInv_setIndex _ 0 (timerInv_pause s h)
      | seek v => exact timerInv_setIndex s v h
      | skipBack => exact timerInv_setIndex s _ h
      | skipForward => exact timerInv_setIndex s _ h
      | setSpeed r => exact timerInv_setSpeed s r h
      | tick => exact timerInv_tick s h
    exact ih (applyOp s o) hstep hrest

/-- C6 counterexample: calling `play` twice in a row (second call while
already playing) leaves two live timers — the first handle is overwritten
without `clearInterval`. -/
theorem c6_counterexample :
    (runOps (initState 1) [Op.play, Op.play]).liveTimers.length = 2 := by
  decide

/-- C6 amended: along every operation sequence in which `play` is invoked
only while stopped — the discipline the UI enforces (the play/pause button
toggles, and `setSpeed` pauses before replaying) — at most one live timer
exists; but `play()` invoked while already playing overwrites the handle
without clearing it, leaking a timer. -/
theorem c6_single_timer (n : ℕ) (ops : List Op)
    (h : guardedTrace (initState n) ops = true) :
    (runOps (initState n) ops).liveTimers.length ≤ 1 := by
  have hInv : TimerInv (initState n) := ⟨Nat.le_refl 1, Or.inl ⟨rfl, rfl⟩, rfl⟩
  obtain ⟨_, hdisj, _⟩ := timerInv_runOps ops (initState n) hInv h
  rcases hdisj with ⟨_, ht⟩ | ⟨hh, _, ht, _⟩ <;> rw [ht] <;> simp

/-- Witness for C6: a five-operation guarded trace including a restart and
a rate change while running. -/
theorem c6_single_timer_witness :
    (runOps (initState 2)
      [Op.play, Op.pause, Op.play, Op.setSpeed 2, Op.tick]).liveTimers.length ≤ 1 :=
  c6_single_timer 2 [Op.play, Op.pause, Op.play, Op.setSpeed 2, Op.tick] (by decide)

/-! ## C9 — sanitize is total and establishes the trajectory invariants -/

open Classical in
/-- C9: sanitization is total (empty input yields empty output, and it is a
function defined on every finite sample list, all of whose field shapes are
covered by the nullable model); its output always has non-decreasing
timestamps and every consecutive output pair within the 500 m bound. -/
theorem c9_sanitize_total_invariants :
    sanitize [] = [] ∧
      ∀ l : List GPSData,
        (sanitize l).Pairwise (fun a b => a.date_time ≤ b.date_time) ∧
          (sanitize l).Chain' nearPred := by
  constructor
  · unfold sanitize smooth
    simp
  · intro l
    constructor
    · have htrans : ∀ a b c : GPSData,
          tsLe a b = true → tsLe b c = true → tsLe a c = true := by
        intro a b c hab hbc
        simp only [tsLe, decide_eq_true_eq] at hab hbc ⊢
        omega
      have htotal : ∀ a b : GPSData, (tsLe a b || tsLe b a) = true := by
        intro a b
        simp only [tsLe, Bool.or_eq_true, decide_eq_true_eq]
        omega
      have hsorted :=
        List.sorted_mergeSort htrans htotal (l.filter fun d => decide (validPoint d))
      obtain ⟨s, hs, he⟩ := smooth_foldl_sublist nearPred
        ((l.filter fun d => decide (validPoint d)).mergeSort tsLe) []
      unfold sanitize smooth
      rw [he, List.nil_append]
      refine List.Pairwise.imp ?_ (List.Pairwise.sublist hs hsorted)
      intro a b hab
      simpa [tsLe, decide_eq_true_eq] using hab
    · unfold sanitize smooth
      exact smooth_foldl_chain' nearPred _ [] (by simp)

/-! ## C8 — sanitize is the identity on clean input -/

open Classical in
/-- C8: on a list of valid samples, already sorted by timestamp, with every
consecutive pair strictly within 500 m, `sanitize` returns the same
elements in the same order. -/
theorem c8_sanitize_idempotent (l : List GPSData)
    (hv : ∀ d ∈ l, validPoint d)
    (hs : l.Pairwise fun a b => a.date_time ≤ b.date_time)
    (hc : l.Chain' nearPred) :
    sanitize l = l := by
  unfold sanitize
  have hf : (l.filter fun d => decide (validPoint d)) = l :=
    List.filter_eq_self.mpr fun a ha => decide_eq_true (hv a ha)
  rw [hf]
  have hsorted : l.Pairwise fun a b => tsLe a b = true :=
    List.Pairwise.imp (fun hab => by simpa [tsLe, decide_eq_true_eq] using hab) hs
  rw [List.mergeSort_of_sorted hsorted]
  unfold smooth
  refine smooth_foldl_of_chain nearPred l [] hc ?_
  intro prev h hl _
  simp at hl

lemma validPoint_ptA : validPoint ptA := by
  refine ⟨?_, ?_, ?_, ?_, ?_, ?_⟩ <;> simp [ptA, numTruthy, optAbs]

/-- Witness for C8 on the singleton clean trajectory `[ptA]`. -/
theorem c8_sanitize_idempotent_witness : sanitize [ptA] = [ptA] :=
  c8_sanitize_idempotent [ptA]
    (by intro d hd; rw [List.mem_singleton] at hd; subst hd; exact validPoint_ptA)
    (by simp)
    (by simp)

/-! ## C1 — anchor-based outlier rejection -/

lemma validPoint_ptB : validPoint ptB := by
  refine ⟨?_, ?_, ?_, ?_, ?_, ?_⟩ <;> norm_num [ptB, numTruthy, optAbs, abs_le]

lemma validPoint_ptC : validPoint ptC := by
  refine ⟨?_, ?_, ?_, ?_, ?_, ?_⟩ <;> norm_num [ptC, numTruthy, optAbs, abs_le]

lemma not_validPoint_ptA0 : ¬ validPoint ptA0 := by
  intro h
  obtain ⟨h1, _⟩ := h
  simp [ptA0, numTruthy] at h1

lemma not_validPoint_ptB0 : ¬ validPoint ptB0 := by
  intro h
  obtain ⟨h1, _⟩ := h
  simp [ptB0, numTruthy] at h1

lemma not_validPoint_ptC0 : ¬ validPoint ptC0 := by
  intro h
  obtain ⟨h1, _⟩ := h
  simp [ptC0, numTruthy] at h1

open Classical in
/-- C1 counterexample: the claim's concrete points A(0,0), B(0,0.01°),
C(0,0.0001°) all have latitude 0 (and A longitude 0), which the validity
filter treats as "no fix" and drops, so sanitizing them yields `[]`, not
`[A, C]`. -/
theorem c1_counterexample :
    sanitize [ptA0, ptB0, ptC0] = [] ∧
      sanitize [ptA0, ptB0, ptC0] ≠ [ptA0, ptC0] := by
  have hfilter : ([ptA0, ptB0, ptC0].filter fun d => decide (validPoint d)) = [] := by
    simp [List.filter_cons, decide_eq_false not_validPoint_ptA0,
      decide_eq_false not_validPoint_ptB0, decide_eq_false not_validPoint_ptC0]
  have hempty : sanitize [ptA0, ptB0, ptC0] = [] := by
    unfold sanitize smooth
    rw [hfilter]
    simp
  exact ⟨hempty, by rw [hempty]; simp⟩

open Classical in
lemma smooth_valid_triple : smooth nearPred [ptA, ptB, ptC] = [ptA, ptC] := by
  have hnear_far : ¬ nearPred ptA ptB := by
    simpa [nearPred, optToNum, ptA, ptB] using dist_far
  have hnear_near : nearPred ptA ptC := by
    simpa [nearPred, optToNum, ptA, ptC] using dist_near
  unfold smooth
  rw [List.foldl_cons, smoothStep_empty nearPred ptA (show ([] : List GPSData).getLast? = none from rfl), List.nil_append,
    smooth_foldl_reject nearPred ptB [ptC] (by simp) hnear_far,
    List.foldl_cons, smoothStep_accept nearPred ptC (by simp) hnear_near]
  rfl

open Classical in
/-- C1 amended: outlier rejection is anchor-based — the first point is
always accepted, a candidate is accepted exactly when it is within 500 m of
the last accepted point, and a rejected candidate leaves the accumulator
unchanged (it never re-anchors and is never reconsidered); the claim's
concrete scenario holds once its points are moved off the zero-coordinate
sentinel, e.g. A(1°,1°), B(1.01°,1°), C(1.0001°,1°) sanitizes to `[A, C]`. -/
theorem c1_anchor_based :
    (∀ (P : Type) (near : P → P → Prop) [DecidableRel near] (p : P) (rest : List P),
        List.foldl (smoothStep near) [] (p :: rest) =
          List.foldl (smoothStep near) [p] rest) ∧
      (∀ (P : Type) (near : P → P → Prop) [DecidableRel near]
          (acc : List P) (prev p : P) (rest : List P),
          acc.getLast? = some prev → ¬ near prev p →
            List.foldl (smoothStep near) acc (p :: rest) =
              List.foldl (smoothStep near) acc rest) ∧
      (∀ (P : Type) (near : P → P → Prop) [DecidableRel near]
          (acc : List P) (prev p : P) (rest : List P),
          acc.getLast? = some prev → near prev p →
            List.foldl (smoothStep near) acc (p :: rest) =
              List.foldl (smoothStep near) (acc ++ [p]) rest) ∧
      sanitize [ptA, ptB, ptC] = [ptA, ptC] := by
  refine ⟨?_, ?_, ?_, ?_⟩
  · intro P near inst p rest
    rw [List.foldl_cons,
      smoothStep_empty near p (show ([] : List P).getLast? = none from rfl),
      List.nil_append]
  · intro P near inst acc prev p rest hlast hn
    exact smooth_foldl_reject near p rest hlast hn
  · intro P near inst acc prev p rest hlast hn
    exact smooth_foldl_accept near p rest hlast hn
  · have hfilter : ([ptA, ptB, ptC].filter fun d => decide (validPoint d)) =
        [ptA, ptB, ptC] := by
      simp [List.filter_cons, decide_eq_true validPoint_ptA,
        decide_eq_true validPoint_ptB, decide_eq_true validPoint_ptC]
    have hsorted : List.Pairwise (fun a b => tsLe a b = true) [ptA, ptB, ptC] := by
      simp [List.pairwise_cons, tsLe, ptA, ptB, ptC]
    unfold sanitize
    rw [hfilter, List.mergeSort_of_sorted hsorted, smooth_valid_triple]

/-- Witness for C1: the loop equations at executable inputs over `ℕ`
(anchor 3, far candidate 1000, near candidate 400) and the valid concrete
scenario. -/
theorem c1_anchor_based_witness :
    List.foldl (smoothStep natNear) [] [7] = List.foldl (smoothStep natNear) [7] [] ∧
      List.foldl (smoothStep natNear) [3] [1000] =
        List.foldl (smoothStep natNear) [3] [] ∧
      List.foldl (smoothStep natNear) [3] [400] =
        List.foldl (smoothStep natNear) ([3] ++ [400]) [] ∧
      sanitize [ptA, ptB, ptC] = [ptA, ptC] :=
  ⟨c1_anchor_based.1 ℕ natNear 7 [],
    c1_anchor_based.2.1 ℕ natNear [3] 3 1000 [] (by decide) (by decide),
    c1_anchor_based.2.2.1 ℕ natNear [3] 3 400 [] (by decide) (by decide),
    c1_anchor_based.2.2.2⟩

end TractorInspector
